import Mathlib

/-!
Verification development for the IPC provider backend of the Mist repository
(src/modules/ipc/ipcProviderBackend2.js).  The definitions below are a shallow
embedding of the closure-based backend (the `module.exports = function(){...}`
block, lines 306-924) and, for the node-state handler, of the class-based
`IpcProviderBackend._onNodeStateChanged` (lines 118-154).  JavaScript objects
are modelled as Lean structures, JS truthiness is made explicit, and the
mutation of the module-level error template objects is modelled by threading
an explicit `Templates` state.
-/

set_option autoImplicit false

/-- A JSON-RPC id value: a number, a string, or JS `undefined` (field absent). -/
inductive JsonId where
  | num (n : Nat)
  | str (s : String)
  | undef
deriving DecidableEq

/-- The `error` member of a JSON-RPC error response object. -/
structure RpcErr where
  code : Int
  message : String
deriving DecidableEq

/-- A JSON value as far as the backend inspects one: an array of strings
(account lists), an opaque object (compiler artifacts), or a string. -/
inductive JVal where
  | arr (xs : List String)
  | obj (s : String)
  | str (s : String)
deriving DecidableEq

/-- A transaction parameter object (`params[0]` of `eth_sendTransaction`):
the `gas` field the confirmation flow amends, plus the remaining fields kept
opaque. -/
structure TxObj where
  gas : Option Nat
  other : String
deriving DecidableEq

/-- One element of the `params` array of a request: a transaction object or a
string (e.g. solidity source for `eth_compileSolidity`). -/
inductive JParam where
  | tx (t : TxObj)
  | str (s : String)
deriving DecidableEq

/-- A single JSON-RPC message object, with the fields the backend inspects.
A field that is absent in the JS object is `none`. -/
structure RpcMsg where
  id : JsonId
  method : Option String
  params : List JParam
  result : Option JVal
  error : Option RpcErr
deriving DecidableEq

/-- A payload as received by `sendRequest`: a single message object or a
batch (JSON array) of message objects. -/
inductive Payload where
  | single (m : RpcMsg)
  | batch (ms : List RpcMsg)
deriving DecidableEq

/-- JS truthiness of an optional string field (missing and `""` are falsy). -/
def truthyStr : Option String → Bool
  | none => false
  | some s => !(s = "")

/-- JS truthiness of an optional JSON value (missing and `""` are falsy;
arrays and objects are always truthy). -/
def truthyResult : Option JVal → Bool
  | none => false
  | some (JVal.str s) => !(s = "")
  | some _ => true

/-- The ASCII single-quote character used by the quoted-name-run regex of makeError. -/
def quoteChar : Char := Char.ofNat 39

/-- A character matched by the class `[a-z_]` under the `i` flag. -/
def isNameChar (c : Char) : Bool := c.isAlpha || c = '_'

/-- The effect of the `message.replace` call of makeError (first quoted run of the class `[a-z_]` under flag `i`, replaced by the quoted method name):
replace the first single-quoted run of letters/underscores by the quoted
replacement `m`; leave the string unchanged when no such run exists.  (The
character class cannot match a quote, so the greedy match of the JS regex engine
needs no backtracking and this scan is exact.) -/
def replaceFirstQuoted (m : List Char) : List Char → List Char
  | [] => []
  | c :: rest =>
    if c = quoteChar then
      match rest.drop ((rest.takeWhile isNameChar).length) with
      | q :: tail =>
        if q = quoteChar then (quoteChar :: m) ++ (quoteChar :: tail)
        else c :: replaceFirstQuoted m rest
      | [] => c :: replaceFirstQuoted m rest
    else c :: replaceFirstQuoted m rest

/-- String interpolation of `payload.method` into the quoted replacement:
a missing method stringifies to `"undefined"`. -/
def methodStr : Option String → String
  | some m => m
  | none => "undefined"

/-- makeError (ipcProviderBackend2.js lines 345-351).  The JS function
mutates the error template object it is given (message replacement, then
`error.id = payload.id`) and returns that same object; here the mutated
template value is returned and the caller threads it back into the shared
template state. -/
def makeError (payload : RpcMsg) (tmpl : RpcMsg) : RpcMsg :=
  let t1 : RpcMsg :=
    match tmpl.error with
    | some e =>
      { tmpl with error := some { e with message := String.mk (replaceFirstQuoted (methodStr payload.method).data e.message.data) } }
    | none => tmpl
  { t1 with id := payload.id }

/-- Left fold of `makeError` over a batch: the successive mutations the JS
`_.map(payload, load => makeError(load, error))` performs on the one shared
template object. -/
def foldedErr (ms : List RpcMsg) (t : RpcMsg) : RpcMsg :=
  ms.foldl (fun acc m => makeError m acc) t

/-- The five module-level template objects (lines 332-337); each is mutated
in place by `makeError`, so they are threaded as state. -/
structure Templates where
  errorMethod : RpcMsg
  errorTimeout : RpcMsg
  errorUnlock : RpcMsg
  errorSendTxBatch : RpcMsg
  nonExistingRequest : RpcMsg
deriving DecidableEq

/-- A reference to one of the five shared template objects. -/
inductive TRef where
  | method | timeout | unlock | sendTxBatch | nonExisting
deriving DecidableEq

def Templates.get (tm : Templates) : TRef → RpcMsg
  | TRef.method => tm.errorMethod
  | TRef.timeout => tm.errorTimeout
  | TRef.unlock => tm.errorUnlock
  | TRef.sendTxBatch => tm.errorSendTxBatch
  | TRef.nonExisting => tm.nonExistingRequest

def Templates.set (tm : Templates) : TRef → RpcMsg → Templates
  | TRef.method, v => { tm with errorMethod := v }
  | TRef.timeout, v => { tm with errorTimeout := v }
  | TRef.unlock, v => { tm with errorUnlock := v }
  | TRef.sendTxBatch, v => { tm with errorSendTxBatch := v }
  | TRef.nonExisting, v => { tm with nonExistingRequest := v }

/-- returnError (lines 358-366).  On a batch the JS code maps `makeError`
over the elements, mutating the one shared template object each time and
collecting the same object reference n times; the array observed by the
caller therefore holds n copies of the final template state.  On a single
payload it is just `makeError`. -/
def returnError (p : Payload) (t : TRef) (tm : Templates) : Templates × Payload :=
  match p with
  | Payload.single m =>
    let e := makeError m (tm.get t)
    (tm.set t e, Payload.single e)
  | Payload.batch ms =>
    let e := foldedErr ms (tm.get t)
    (tm.set t e, Payload.batch (List.replicate ms.length e))

/-- Shape of the four error templates: `{jsonrpc, error: {code, message}, id: "__id__"}`. -/
def errTemplate (code : Int) (msg : String) : RpcMsg :=
  { id := JsonId.str "__id__", method := none, params := [], result := none,
    error := some { code := code, message := msg } }

/-- Initial values of the template objects (lines 332-337). -/
def initTemplates : Templates :=
  { errorMethod := errTemplate (-32601) "Method \x27__method__\x27 not allowed."
    errorTimeout := errTemplate (-32603) "Request timed out for method  \x27__method__\x27."
    errorUnlock := errTemplate (-32603) "Transaction denied"
    errorSendTxBatch := errTemplate (-32603) "Transactions denied, sendTransaction is not allowed in batch requests."
    nonExistingRequest :=
      { id := JsonId.str "__id__", method := some "eth_nonExistingMethod", params := [],
        result := none, error := none } }

/-- String prefix test, on the underlying character lists. -/
def strStarts (pre s : String) : Bool :=
  pre.data.isPrefixOf s.data

/-- The dapp method allow-list test `/^eth_|^shh_|^net_|^web3_|^db_/.test(payload.method)`
(line 591). -/
def allowedMethod (m : String) : Bool :=
  strStarts "eth_" m || strStarts "shh_" m || strStarts "net_" m ||
  strStarts "web3_" m || strStarts "db_" m

/-- Per-tab permission record consulted by `testPayload`
(`Tabs.findOne({webviewId: this.id})`, truthiness chain
`tab && tab.permissions && tab.permissions.accounts`). -/
structure Perms where
  accounts : Option (List String)
deriving DecidableEq

structure Tab where
  permissions : Option Perms
deriving DecidableEq

/-- The allowed-account set recorded for the view, `none` when any link of the
truthiness chain `tab && tab.permissions && tab.permissions.accounts` fails.
(A JS array is always truthy, so a recorded empty list still counts as a
recorded permission.) -/
def tabAccounts : Option Tab → Option (List String)
  | some t =>
    match t.permissions with
    | some pm => pm.accounts
    | none => none
  | none => none

/-- Accumulator loop of underscore.js `_.intersection(a, b)`: walk `a`, skip
items already collected, keep items contained in `b`, preserving order. -/
def interAux (b : List String) : List String → List String → List String
  | [], acc => acc.reverse
  | x :: xs, acc =>
    if acc.contains x then interAux b xs acc
    else if b.contains x then interAux b xs (x :: acc)
    else interAux b xs acc

/-- underscore.js `_.intersection` on two string lists. -/
def jsIntersection (a b : List String) : List String :=
  interAux b a []

/-- The array that underscore `_.intersection(payload.result, accounts)` iterates:
the result value when it is an array, otherwise nothing (a non-array first
argument yields `[]`). -/
def resultArr : Option JVal → List String
  | some (JVal.arr xs) => xs
  | _ => []

/-- Account narrowing of lines 606-612: intersect against the recorded
allowed accounts, or clear the list when the view has no recorded permission. -/
def narrowAccounts (tab : Option Tab) (r : Option JVal) : List String :=
  match tabAccounts tab with
  | some accts => jsIntersection (resultArr r) accts
  | none => []

/-- testPayload (lines 581-616).  `err` is the error template argument
(`false` in JS is `none` here); the `none` result is JS `false`.  The shared
template state is threaded because the error branch mutates the given
template via `returnError`/`makeError`. -/
def testPayload (tm : Templates) (p : RpcMsg) (err : Option TRef)
    (method : Option String) (tab : Option Tab) : Templates × Option RpcMsg :=
  if p.error.isSome then (tm, some p)
  else if truthyStr p.method then
    if allowedMethod (p.method.getD "") then (tm, some p)
    else
      match err with
      | some t =>
        let e := makeError p (tm.get t)
        (tm.set t e, some e)
      | none => (tm, none)
  else if truthyResult p.result then
    if !(truthyStr method) then
      match err with
      | some t =>
        let e := makeError p (tm.get t)
        (tm.set t e, some e)
      | none => (tm, none)
    else if method = some "eth_accounts" then
      (tm, some { p with result := some (JVal.arr (narrowAccounts tab p.result)) })
    else (tm, some p)
  else (tm, some p)

/-- What the window registry tells `filterRequestResponse` (lines 633-637):
the id of the main window, if one exists, and for `Windows.getById(this.id)`
whether a window record was found and its `type` field. -/
structure WndReg where
  mainId : Option Nat
  thisType : Option (Option String)
deriving DecidableEq

/-- The privilege test of lines 636-637:
`mainWindow && this.id === mainWindow.id || (thisWindow && thisWindow.type && thisWindow.type !== "webview")`. -/
def isPrivileged (reg : WndReg) (selfId : Nat) : Bool :=
  (match reg.mainId with
   | some mid => decide (selfId = mid)
   | none => false) ||
  (match reg.thisType with
   | some (some ty) => !(ty = "") && !(ty = "webview")
   | some none => false
   | none => false)

/-- One element of the batch arm of `filterRequestResponse` (lines 642-647):
look up the originating request by id in the registered event payload, then
run `testPayload` with `errorMethod` for responses and `nonExistingRequest`
for requests.  The error template is always supplied in this arm, so the
`testPayload` result is never `none`; `getD load` is dead. -/
def filterBatchStep (tab : Option Tab) (evtReq : Option Payload)
    (acc : Templates × List RpcMsg) (load : RpcMsg) : Templates × List RpcMsg :=
  let req : Option RpcMsg :=
    match evtReq with
    | some (Payload.batch reqs) => reqs.find? (fun re => decide (re.id = load.id))
    | _ => none
  let errT : TRef := if truthyResult load.result then TRef.method else TRef.nonExisting
  let reqMethod : Option String :=
    match req with
    | some r => r.method
    | none => none
  let r := testPayload acc.1 load (some errT) reqMethod tab
  (r.1, acc.2 ++ [r.2.getD load])

/-- filterRequestResponse of the GethConnection (lines 626-652).  `evtReq` is
`event.payload`, the registered request payload matching this response
(`none` when filtering an outgoing request).  The JS `false` result is
`none`. -/
def filterRequestResponse (reg : WndReg) (selfId : Nat) (tm : Templates)
    (p : Payload) (evtReq : Option Payload) (tab : Option Tab) :
    Templates × Option Payload :=
  if isPrivileged reg selfId then (tm, some p)
  else
    match p with
    | Payload.batch ms =>
      let r := ms.foldl (filterBatchStep tab evtReq) (tm, [])
      (r.1, some (Payload.batch r.2))
    | Payload.single m =>
      let errT : Option TRef := if truthyResult m.result then some TRef.method else none
      let reqMethod : Option String :=
        match evtReq with
        | some (Payload.single r) => r.method
        | _ => none
      let r := testPayload tm m errT reqMethod tab
      (r.1, r.2.map Payload.single)

/-- An event observed by the `eth_sendTransaction` confirmation gate
(checkRequests, lines 676-720): the `closed` event of the confirmation window, or
a `backendAction_unlockedAccount` ipc event carrying `(err, result)`.
`fromModal` is the guard `ev.sender.getId() === modalWindow.id`; `result` is
the (possibly amended) gas value, `none` when the event carries no result. -/
inductive GateEvent where
  | closed
  | decision (fromModal : Bool) (err : Bool) (result : Option Nat)
deriving DecidableEq

/-- An output of `checkRequests`: an invocation of its callback
(`callback(error)`, `callback(null, payload)` or `callback(true)`), or the
direct response delivery the compile branch performs (`event.returnValue` /
`ipcProvider-data`, lines 734-737). -/
inductive GateOut where
  | cbErr (t : TRef)
  | cbOk (p : Payload)
  | cbStop
  | deliver (sync : Bool) (m : RpcMsg)
deriving DecidableEq

/-- State of one pending `eth_sendTransaction` confirmation: the `called`
latch, whether the one-shot `ipc.once` listener has fired, whether the modal
window is still open, the (mutable) filtered payload, and the callback
invocations made so far. -/
structure GateState where
  called : Bool
  decisionTaken : Bool
  modalOpen : Bool
  payloadCur : RpcMsg
  outs : List GateOut
deriving DecidableEq

def gateInit (m : RpcMsg) : GateState :=
  { called := false, decisionTaken := false, modalOpen := true, payloadCur := m, outs := [] }

/-- JS truthiness of the `result` argument of the decision event (`0` is
falsy and is treated as a denial by `if(err || !result)`). -/
def truthyGas : Option Nat → Bool
  | none => false
  | some g => !(g = 0)

/-- One step of the confirmation gate.  `closed` (lines 689-694) resolves
with the unlock error unless `called` is already set.  The decision handler
(lines 696-720) runs at most once (`ipc.once`); when its window guard holds
it either denies (err or falsy result) or amends `params[0].gas` and
forwards; both paths are latched by `called`.  An approval whose payload has
no leading transaction object aborts with a TypeError on the
`params[0].gas = result` assignment before any callback can run. -/
def gateStep (s : GateState) : GateEvent → GateState
  | GateEvent.closed =>
    let s1 := if s.called then s
      else { s with outs := s.outs ++ [GateOut.cbErr TRef.unlock], called := true }
    { s1 with modalOpen := false }
  | GateEvent.decision fromModal err res =>
    if s.decisionTaken then s
    else
      let s1 := { s with decisionTaken := true }
      if fromModal && s1.modalOpen then
        if err || !(truthyGas res) then
          let s2 := if s1.called then s1
            else { s1 with outs := s1.outs ++ [GateOut.cbErr TRef.unlock] }
          { s2 with called := true, modalOpen := false }
        else
          match s1.payloadCur.params with
          | JParam.tx t :: rest =>
            let p1 := { s1.payloadCur with params := JParam.tx { t with gas := res } :: rest }
            let s2 := { s1 with payloadCur := p1 }
            let s3 := if s2.called then s2
              else { s2 with outs := s2.outs ++ [GateOut.cbOk (Payload.single p1)] }
            { s3 with called := true, modalOpen := false }
          | _ => s1
      else s1

/-- The confirmation gate run over a sequence of events. -/
def gateRun (m : RpcMsg) (evs : List GateEvent) : GateState :=
  evs.foldl gateStep (gateInit m)

/-- Output of the external solidity compiler collaborator
(`solc.compile(source, 1)`): `none` for a falsy output, otherwise an object
with optional `errors` and the compiled `contracts`. -/
structure SolcOut where
  errors : Option String
  contracts : String
deriving DecidableEq

/-- The response object the compile branch builds (lines 730-732):
`(!output || output.errors)` selects a -32700 error envelope carrying the
compiler diagnostics (or `Compile error` when the output itself is falsy),
otherwise a result envelope with the compiled contracts; both carry the
id of the request. -/
def compileResponse (m : RpcMsg) (out : Option SolcOut) : RpcMsg :=
  match out with
  | none =>
    { id := m.id, method := none, params := [], result := none,
      error := some { code := -32700, message := "Compile error" } }
  | some o =>
    if truthyStr o.errors then
      { id := m.id, method := none, params := [], result := none,
        error := some { code := -32700, message := o.errors.getD "" } }
    else
      { id := m.id, method := none, params := [], result := some (JVal.obj o.contracts),
        error := none }

/-- checkRequests (lines 663-747) as the list of callback invocations and
direct deliveries it performs.  A batch containing an `eth_sendTransaction`
element resolves with the batch error; other batches pass through.  A single
`eth_sendTransaction` runs the confirmation gate over `evs`; a single
`eth_compileSolidity` compiles locally (collaborator `cf`), delivers the
response on the sync/async channel of the caller and then calls `callback(true)`;
everything else passes through. -/
def checkRequests (fp : Payload) (evs : List GateEvent)
    (cf : Option JParam → Option SolcOut) (sync : Bool) : List GateOut :=
  match fp with
  | Payload.batch ms =>
    if ms.any (fun m => decide (m.method = some "eth_sendTransaction")) then
      [GateOut.cbErr TRef.sendTxBatch]
    else [GateOut.cbOk (Payload.batch ms)]
  | Payload.single m =>
    if m.method = some "eth_sendTransaction" then (gateRun m evs).outs
    else if m.method = some "eth_compileSolidity" then
      [GateOut.deliver sync (compileResponse m (cf m.params.head?)), GateOut.cbStop]
    else [GateOut.cbOk (Payload.single m)]

/-- `_.isEmpty` on a filtered payload: `false` (our `none`) and the empty
array are empty; a message object always has keys. -/
def payloadIsEmpty : Option Payload → Bool
  | none => true
  | some (Payload.single _) => false
  | some (Payload.batch ms) => ms.isEmpty

/-- An observable effect of `sendRequest`: a write of the payload to the
daemon socket (`socket.ipcSocket.write`, line 905), or a response delivered
back to the calling view (`event.returnValue` when sync, an
`ipcProvider-data` push when async). -/
inductive Output where
  | write (p : Payload)
  | respond (sync : Bool) (p : Payload)
deriving DecidableEq

/-- JS truthiness of an id value, as `result.id ||` on line 892 tests it:
the number 0, the empty string and a missing id are falsy. -/
def truthyId : JsonId → Bool
  | JsonId.num n => !(n = 0)
  | JsonId.str s => !(s = "")
  | JsonId.undef => false

/-- The callback body of `sendRequest` (lines 885-916) applied to one gate
output: a non-empty success result is written to the socket (the pending-map
registration that accompanies the write is modelled by the correlation
machine below); an error other than `true` is returned to the caller as
`returnError(jsonPayload, e)`; `callback(true)` produces nothing; a direct
delivery from the compile branch goes out on the channel of the caller as is.
Before registration and write the success branch runs
`var id = result.id || result[0].id` (line 892): on a single message whose id
is falsy, `result[0]` is undefined on a plain object and `.id` throws a
TypeError, aborting the callback before anything is written; on a (non-empty)
batch, `result.id` is undefined on the array and `result[0].id` reads the
first element id without throwing. -/
def cbDispatch (sync : Bool) (jsonP : Payload) (tm : Templates) :
    GateOut → List Output × Templates
  | GateOut.cbOk r =>
    if payloadIsEmpty (some r) then ([], tm)
    else
      match r with
      | Payload.single m =>
        if truthyId m.id then ([Output.write (Payload.single m)], tm)
        else ([], tm)
      | Payload.batch ms => ([Output.write (Payload.batch ms)], tm)
  | GateOut.cbErr t =>
    let re := returnError jsonP t tm
    ([Output.respond sync re.2], re.1)
  | GateOut.cbStop => ([], tm)
  | GateOut.deliver s r => ([Output.respond s (Payload.single r)], tm)

def dispatchFold (sync : Bool) (jsonP : Payload) (acc : List Output × Templates)
    (o : GateOut) : List Output × Templates :=
  let r := cbDispatch sync jsonP acc.2 o
  (acc.1 ++ r.1, r.2)

/-- The gate-and-dispatch tail of `sendRequest`: run `checkRequests` on the
filtered payload and dispatch each of its outputs. -/
def runGate (sync : Bool) (jsonP fp : Payload) (tm : Templates)
    (evs : List GateEvent) (cf : Option JParam → Option SolcOut) :
    List Output × Templates :=
  (checkRequests fp evs cf sync).foldl (dispatchFold sync jsonP) ([], tm)

/-- sendRequest (lines 833-917) for a connected, writable socket: parse
(already done here), filter, reject empty/false filtered payloads with the
method error, otherwise hand over to `checkRequests` and dispatch its
callback outputs. -/
def sendRequest (reg : WndReg) (selfId : Nat) (sync : Bool) (tab : Option Tab)
    (p : Payload) (tm : Templates) (evs : List GateEvent)
    (cf : Option JParam → Option SolcOut) : List Output × Templates :=
  let ftr := filterRequestResponse reg selfId tm p none tab
  if payloadIsEmpty ftr.2 then
    let re := returnError p TRef.method ftr.1
    ([Output.respond sync re.2], re.1)
  else
    match ftr.2 with
    | none => ([], ftr.1)
    | some fp => runGate sync p fp ftr.1 evs cf

/-- A pending call registered in `syncEvents`/`asyncEvents` (lines 896-903):
the ipc event object carrying the registered payload, its `sync` flag, the
`eventId` stored at registration, and whether its sender webContents has
been destroyed meanwhile. -/
structure PendEv where
  senderDestroyed : Bool
  sync : Bool
  eventId : JsonId
  payload : Payload
deriving DecidableEq

/-- A delivery made by the `timeout` method: an async `ipcProvider-data`
push or a sync `event.returnValue` assignment, carrying the stringified
error payload. -/
inductive TDeliv where
  | push (p : Payload)
  | retVal (p : Payload)
deriving DecidableEq

/-- Association-list lookup by JSON-RPC id (`this.syncEvents[id]`). -/
def alookup (k : JsonId) : List (JsonId × PendEv) → Option PendEv
  | [] => none
  | e :: rest => if e.1 = k then some e.2 else alookup k rest

/-- Association-list delete by id (`delete this.syncEvents[key]`; object
keys are unique, so removing every entry with this key is exact). -/
def aerase (k : JsonId) (l : List (JsonId × PendEv)) : List (JsonId × PendEv) :=
  l.filter (fun e => decide (¬ e.1 = k))

/-- The map left behind after `_.each(map, (event, key) => { ...; delete map[key]; })`:
underscore iterates a snapshot of the keys and the loop body deletes each
one from the live object. -/
def purge (l : List (JsonId × PendEv)) : List (JsonId × PendEv) :=
  (l.map Prod.fst).foldl (fun m k => aerase k m) l

/-- One `_.each` pass of the `timeout` method (lines 761-770) over one of
the two pending maps: deliver `returnError(event.payload, errorTimeout)` to
every event whose sender still exists (async passes push, sync passes
returnValue), threading the shared `errorTimeout` template, which is
mutated and stringified once per event. -/
def timeoutPass (isAsync : Bool) : List (JsonId × PendEv) → Templates → List TDeliv × Templates
  | [], tm => ([], tm)
  | (_, ev) :: rest, tm =>
    if ev.senderDestroyed then timeoutPass isAsync rest tm
    else
      let re := returnError ev.payload TRef.timeout tm
      let d := if isAsync then TDeliv.push re.2 else TDeliv.retVal re.2
      let r := timeoutPass isAsync rest re.1
      (d :: r.1, r.2)

/-- GethConnection.prototype.timeout (lines 754-771): resolve every pending
async event, then every pending sync event, with a synthesized timeout
error, deleting each processed key; returns the deliveries, the final
template state, and the two pending maps after all deletions.  (The
`setWritable` notification to the owner on line 758 is a separate push to
the connection owner and carries no pending-call resolution.) -/
def connTimeout (asyncs syncs : List (JsonId × PendEv)) (tm : Templates) :
    List TDeliv × Templates × List (JsonId × PendEv) × List (JsonId × PendEv) :=
  let ra := timeoutPass true asyncs tm
  let rs := timeoutPass false syncs ra.2
  (ra.1 ++ rs.1, rs.2, purge asyncs, purge syncs)

/-- Correlation bookkeeping state of one GethConnection: the two pending
maps. -/
structure ConnState where
  syncs : List (JsonId × PendEv)
  asyncs : List (JsonId × PendEv)
deriving DecidableEq

/-- An event affecting the correlation state: a (framed, parsed) response
payload arriving on the socket, or the socket-level timeout path that runs
the `timeout` method. -/
inductive ConnEvent where
  | respond (resp : Payload)
  | sockTimeout
deriving DecidableEq

def pendingIds (st : ConnState) : List JsonId :=
  st.syncs.map Prod.fst ++ st.asyncs.map Prod.fst

/-- The lookup `this.syncEvents[response.id] || this.asyncEvents[response.id]`
(line 568), keeping the id it was found under. -/
def lookupBoth (st : ConnState) (i : JsonId) : Option (JsonId × PendEv) :=
  match alookup i st.syncs with
  | some ev => some (i, ev)
  | none =>
    match alookup i st.asyncs with
    | some ev => some (i, ev)
    | none => none

/-- getResponseEvent (lines 558-569): for a batch response, find the first
element whose id has a pending event; then look the id up in `syncEvents`
first, `asyncEvents` second. -/
def getResponseEvent (st : ConnState) : Payload → Option (JsonId × PendEv)
  | Payload.single m => lookupBoth st m.id
  | Payload.batch ms =>
    match ms.find? (fun load => (alookup load.id st.syncs).isSome || (alookup load.id st.asyncs).isSome) with
    | none => none
    | some m => lookupBoth st m.id

/-- One step of the correlation machine, returning the new state and the
list of resolutions `(id, delivered)` it performs.  A `respond` event is the
socket `data` handler (lines 468-503): an unmatched response is a
notification forwarded to the owner and resolves nothing; a matched one is
delivered to its event (when the sender still exists; the filtering of the
response content on line 484 is `filterRequestResponse`, modelled above, and
does not touch the pending maps) and its `event.eventId` key is deleted from
the map selected by `event.sync`.  A `sockTimeout` event runs the `timeout`
method: every pending entry on both maps is resolved (delivered when its
sender exists, async pass first) and both maps are purged. -/
def connStep (st : ConnState) : ConnEvent → ConnState × List (JsonId × Bool)
  | ConnEvent.respond resp =>
    match getResponseEvent st resp with
    | none => (st, [])
    | some (k, ev) =>
      if ev.sync then
        ({ st with syncs := aerase ev.eventId st.syncs }, [(k, !ev.senderDestroyed)])
      else
        ({ st with asyncs := aerase ev.eventId st.asyncs }, [(k, !ev.senderDestroyed)])
  | ConnEvent.sockTimeout =>
    (⟨purge st.syncs, purge st.asyncs⟩,
      st.asyncs.map (fun e => (e.1, !e.2.senderDestroyed)) ++
      st.syncs.map (fun e => (e.1, !e.2.senderDestroyed)))

/-- The correlation machine run over a sequence of events. -/
def runConn (st : ConnState) : List ConnEvent → ConnState × List (JsonId × Bool)
  | [] => (st, [])
  | e :: es =>
    let r := connStep st e
    let rr := runConn r.1 es
    (rr.1, r.2 ++ rr.2)

/-- Registration invariants of the pending maps: ids are unique across both
maps, the stored `eventId` of every entry is its key, and the `sync` flag matches
the map the entry was registered in (lines 896-903). -/
def ConnInv (st : ConnState) : Prop :=
  (pendingIds st).Nodup ∧
  (∀ e ∈ st.syncs, e.2.sync = true ∧ e.2.eventId = e.1) ∧
  (∀ e ∈ st.asyncs, e.2.sync = false ∧ e.2.eventId = e.1)

/-- All pending entries have a live (non-destroyed) sender. -/
def ConnLive (st : ConnState) : Prop :=
  (∀ e ∈ st.syncs, e.2.senderDestroyed = false) ∧
  (∀ e ∈ st.asyncs, e.2.senderDestroyed = false)

/-- The messages of a payload. -/
def msgsOfP : Payload → List RpcMsg
  | Payload.single m => [m]
  | Payload.batch ms => ms

/-- The ids of the messages of a payload. -/
def idsOfP (p : Payload) : List JsonId :=
  (msgsOfP p).map (fun m => m.id)

/-- The id of the last message of a batch, or `d` when the batch is empty. -/
def lastIdOr (ms : List RpcMsg) (d : JsonId) : JsonId :=
  match ms.getLast? with
  | some m => m.id
  | none => d

/-- The id list of the error payload `returnError` synthesizes from a
pending payload: the id of the single payload, or — because a batch error is n
aliases of the one template object whose id was last overwritten — the last
id of the last batch element, n times. -/
def errIdsOf : Payload → List JsonId
  | Payload.single m => [m.id]
  | Payload.batch ms => List.replicate ms.length (lastIdOr ms JsonId.undef)

/-- Mode and ids of a timeout delivery. -/
def delivSig : TDeliv → Bool × List JsonId
  | TDeliv.push p => (true, idsOfP p)
  | TDeliv.retVal p => (false, idsOfP p)

/-- The payload a timeout delivery carries. -/
def delivPayload : TDeliv → Payload
  | TDeliv.push p => p
  | TDeliv.retVal p => p

/-- The pending entries whose sender webContents still exists. -/
def liveOf (l : List (JsonId × PendEv)) : List (JsonId × PendEv) :=
  l.filter (fun e => !e.2.senderDestroyed)

/-- A connection-registry entry of the class-based `IpcProviderBackend` as
`_createConnection` stores it (lines 74-77): only an `owner` and a `socket`
field.  In particular no `sender` field is ever assigned, so `item.sender`
reads back JS `undefined`, which is modelled as the constant `none` below. -/
structure ClassConnEntry where
  owner : Nat
  socket : Nat
  sender : Option Nat
deriving DecidableEq

/-- The entry `this._connections[wnd.id] = { owner: wnd, socket: socket }`
(lines 74-77) builds. -/
def mkClassConnEntry (wndId socketId : Nat) : ClassConnEntry :=
  { owner := wndId, socket := socketId, sender := none }

/-- Result of evaluating a JS member-call expression that may throw. -/
inductive JsOutcome (A : Type) where
  | ok (a : A)
  | typeError
deriving DecidableEq

/-- `item.sender.getId()`: a TypeError when `item.sender` is undefined. -/
def jsGetId : Option Nat → JsOutcome Nat
  | none => JsOutcome.typeError
  | some s => JsOutcome.ok s

/-- A message the lifecycle handler sends to a connection owner. -/
inductive OwnerMsg where
  | setWritable (b : Bool)
deriving DecidableEq

/-- The STOPPING iterator of `_onNodeStateChanged` (lines 124-130): it first
evaluates the template literal argument of `log.debug`, which calls
`item.sender.getId()`; only afterwards would
`item.owner.send("ipcProvider-setWritable", false)` and
`item.socket.disconnect()` run.  Returns the owner messages emitted before
a possible throw, and whether the iterator threw. -/
def stoppingIter (item : ClassConnEntry) : List (Nat × OwnerMsg) × Bool :=
  match jsGetId item.sender with
  | JsOutcome.typeError => ([], true)
  | JsOutcome.ok _ => ([(item.owner, OwnerMsg.setWritable false)], false)

/-- The owner messages the STOPPING branch emits across the registry.
(The Bluebird `Promise.map` over the plain `this._connections` object in fact
rejects before running any iterator; even granting per-value iteration as
modelled here, each iterator throws before its send.) -/
def onNodeStateStoppingSends (conns : List ClassConnEntry) : List (Nat × OwnerMsg) :=
  (conns.map (fun c => (stoppingIter c).1)).flatten

/-- The CONNECTED iterator (lines 140-147): after `socket.connect` succeeds,
the `.then` body evaluates `item.sender.getId()` inside the `log.debug`
template literal before `item.owner.send("ipcProvider-setWritable", true)`. -/
def connectedIter (item : ClassConnEntry) (connectSucceeds : Bool) :
    List (Nat × OwnerMsg) × Bool :=
  if connectSucceeds then
    match jsGetId item.sender with
    | JsOutcome.typeError => ([], true)
    | JsOutcome.ok _ => ([(item.owner, OwnerMsg.setWritable true)], false)
  else ([], false)

/-- The owner messages the CONNECTED branch emits across the registry, given
which sockets manage to reconnect. -/
def onNodeStateConnectedSends (conns : List ClassConnEntry) (succ : Nat → Bool) :
    List (Nat × OwnerMsg) :=
  (conns.map (fun c => (connectedIter c (succ c.socket)).1)).flatten

theorem replaceFirstQuoted_noquote (m l : List Char) (h : quoteChar ∉ l) :
    replaceFirstQuoted m l = l := by
  induction l with
  | nil => rfl
  | cons c rest ih =>
    have hc : ¬ c = quoteChar := by
      intro hq
      exact h (hq ▸ List.mem_cons_self c rest)
    have hr : quoteChar ∉ rest := fun hm => h (List.mem_cons_of_mem _ hm)
    simp [replaceFirstQuoted, hc, ih hr]

theorem makeError_id (p t : RpcMsg) : (makeError p t).id = p.id := by
  cases h : t.error <;> simp [makeError, h]

theorem makeError_error_code (p t : RpcMsg) :
    ((makeError p t).error).map RpcErr.code = (t.error).map RpcErr.code := by
  cases h : t.error <;> simp [makeError, h]

theorem makeError_error_noquote (p t : RpcMsg) (e : RpcErr)
    (ht : t.error = some e) (hq : quoteChar ∉ e.message.data) :
    (makeError p t).error = some e := by
  simp [makeError, ht, replaceFirstQuoted_noquote _ _ hq]

theorem foldedErr_cons (m : RpcMsg) (ms : List RpcMsg) (t : RpcMsg) :
    foldedErr (m :: ms) t = foldedErr ms (makeError m t) := rfl

theorem foldedErr_id (ms : List RpcMsg) (t : RpcMsg) :
    (foldedErr ms t).id = lastIdOr ms t.id := by
  induction ms generalizing t with
  | nil => rfl
  | cons m ms ih =>
    rw [foldedErr_cons, ih]
    cases ms with
    | nil => simp [lastIdOr, makeError_id]
    | cons m2 ms2 =>
      simp only [lastIdOr]
      rw [List.getLast?_cons_cons]
      rcases h : (m2 :: ms2).getLast? with _ | x
      · exact absurd (List.getLast?_eq_none_iff.mp h) (List.cons_ne_nil m2 ms2)
      · rfl

theorem foldedErr_error_noquote (ms : List RpcMsg) (t : RpcMsg) (e : RpcErr)
    (ht : t.error = some e) (hq : quoteChar ∉ e.message.data) :
    (foldedErr ms t).error = some e := by
  induction ms generalizing t with
  | nil => exact ht
  | cons m ms ih => rw [foldedErr_cons]; exact ih _ (makeError_error_noquote _ _ _ ht hq)

theorem foldedErr_error_code (ms : List RpcMsg) (t : RpcMsg) :
    ((foldedErr ms t).error).map RpcErr.code = (t.error).map RpcErr.code := by
  induction ms generalizing t with
  | nil => rfl
  | cons m ms ih => rw [foldedErr_cons, ih, makeError_error_code]

theorem Templates.get_set (tm : Templates) (t : TRef) (v : RpcMsg) :
    (tm.set t v).get t = v := by
  cases t <;> rfl

theorem interAux_mem (b : List String) (l : List String) (y : String) :
    ∀ acc, y ∈ interAux b l acc → y ∈ acc ∨ y ∈ b := by
  induction l with
  | nil =>
    intro acc h
    left
    simpa [interAux] using h
  | cons x xs ih =>
    intro acc h
    by_cases h1 : acc.contains x
    · simp only [interAux, h1, if_pos] at h
      exact ih _ h
    · by_cases h2 : b.contains x
      · simp only [interAux, h1, h2, if_neg, if_pos, Bool.false_eq_true,
          not_false_eq_true] at h
        rcases ih _ h with hy | hy
        · rcases List.mem_cons.mp hy with rfl | hy
          · right
            simpa using h2
          · left; exact hy
        · right; exact hy
      · simp only [interAux, h1, h2, if_neg, Bool.false_eq_true, not_false_eq_true] at h
        exact ih _ h

theorem jsIntersection_sub (a b : List String) (y : String)
    (h : y ∈ jsIntersection a b) : y ∈ b := by
  rcases interAux_mem b a y [] h with hy | hy
  · exact absurd hy (List.not_mem_nil y)
  · exact hy

theorem gateStep_called (s : GateState) (e : GateEvent) (h : s.called = true) :
    (gateStep s e).called = true ∧ (gateStep s e).outs = s.outs := by
  cases e with
  | closed => simp [gateStep, h]
  | decision fm err res =>
    by_cases hd : s.decisionTaken = true
    · simp [gateStep, hd, h]
    · simp only [gateStep, hd, Bool.false_eq_true, if_neg, not_false_eq_true]
      by_cases hg : (fm && s.modalOpen) = true
      · simp only [hg, if_pos]
        by_cases he : (err || !truthyGas res) = true
        · simp [he, h]
        · simp only [he, Bool.false_eq_true, if_neg, not_false_eq_true]
          rcases hp : s.payloadCur.params with _ | ⟨p0, rest⟩
          · simp [h]
          · cases p0 with
            | tx t => simp [h]
            | str s2 => simp [h]
      · simp [hg, h]

def gateOk (s : GateState) : Prop :=
  s.outs.length ≤ 1 ∧ (s.called = false → s.outs = [])

theorem gateStep_ok (s : GateState) (e : GateEvent) (h : gateOk s) : gateOk (gateStep s e) := by
  by_cases hc : s.called = true
  · have hs := gateStep_called s e hc
    exact ⟨hs.2 ▸ h.1, fun hf => absurd hs.1 (by simp [hf])⟩
  · have hc0 : s.called = false := by revert hc; cases s.called <;> simp
    have h0 : s.outs = [] := h.2 hc0
    cases e with
    | closed => simp [gateStep, hc0, h0, gateOk]
    | decision fm err res =>
      by_cases hd : s.decisionTaken = true
      · simpa [gateStep, hd] using h
      · simp only [gateStep, hd, Bool.false_eq_true, if_neg, not_false_eq_true]
        by_cases hg : (fm && s.modalOpen) = true
        · simp only [hg, if_pos]
          by_cases he : (err || !truthyGas res) = true
          · simp [he, hc0, h0, gateOk]
          · simp only [he, Bool.false_eq_true, if_neg, not_false_eq_true]
            rcases hp : s.payloadCur.params with _ | ⟨p0, rest⟩
            · simpa [gateOk] using h
            · cases p0 with
              | tx t => simp [hc0, h0, gateOk]
              | str s2 => simpa [gateOk] using h
        · simpa [gateStep, hg, gateOk] using h

theorem gateRun_le_one (m : RpcMsg) (evs : List GateEvent) : (gateRun m evs).outs.length ≤ 1 := by
  have key : ∀ evs s, gateOk s → gateOk (List.foldl gateStep s evs) := by
    intro evs
    induction evs with
    | nil => intro s h; exact h
    | cons e es ih => intro s h; exact ih _ (gateStep_ok s e h)
  exact (key evs (gateInit m) ⟨by simp [gateInit], fun _ => rfl⟩).1

theorem gateFoldl_frozen (evs : List GateEvent) (s : GateState) (h : s.called = true) :
    (List.foldl gateStep s evs).outs = s.outs := by
  induction evs generalizing s with
  | nil => rfl
  | cons e es ih =>
    have hc := gateStep_called s e h
    rw [List.foldl_cons, ih _ hc.1, hc.2]

theorem gateRun_closed_first (m : RpcMsg) (evs : List GateEvent) :
    (gateRun m (GateEvent.closed :: evs)).outs = [GateOut.cbErr TRef.unlock] := by
  unfold gateRun
  rw [List.foldl_cons]
  have h1 : gateStep (gateInit m) GateEvent.closed
      = { called := true, decisionTaken := false, modalOpen := false, payloadCur := m,
          outs := [GateOut.cbErr TRef.unlock] } := by
    simp [gateStep, gateInit]
  rw [h1, gateFoldl_frozen _ _ rfl]

theorem gateRun_denial_first (m : RpcMsg) (err : Bool) (res : Option Nat)
    (h : (err || !truthyGas res) = true) (evs : List GateEvent) :
    (gateRun m (GateEvent.decision true err res :: evs)).outs = [GateOut.cbErr TRef.unlock] := by
  unfold gateRun
  rw [List.foldl_cons]
  have h1 : gateStep (gateInit m) (GateEvent.decision true err res)
      = { called := true, decisionTaken := true, modalOpen := false, payloadCur := m,
          outs := [GateOut.cbErr TRef.unlock] } := by
    simp [gateStep, gateInit, h]
  rw [h1, gateFoldl_frozen _ _ rfl]

theorem gateRun_approval_first (m : RpcMsg) (t : TxObj) (rest : List JParam) (g : Nat)
    (hp : m.params = JParam.tx t :: rest) (hg : ¬ g = 0) (evs : List GateEvent) :
    (gateRun m (GateEvent.decision true false (some g) :: evs)).outs
      = [GateOut.cbOk (Payload.single
          { m with params := JParam.tx { t with gas := some g } :: rest })] := by
  unfold gateRun
  rw [List.foldl_cons]
  have h1 : gateStep (gateInit m) (GateEvent.decision true false (some g))
      = { called := true, decisionTaken := true, modalOpen := false,
          payloadCur := { m with params := JParam.tx { t with gas := some g } :: rest },
          outs := [GateOut.cbOk (Payload.single
            { m with params := JParam.tx { t with gas := some g } :: rest })] } := by
    simp [gateStep, gateInit, truthyGas, hg, hp]
  rw [h1, gateFoldl_frozen _ _ rfl]

theorem filter_single_allowed (reg : WndReg) (selfId : Nat) (tm : Templates)
    (tab : Option Tab) (p : RpcMsg) (mname : String)
    (hm : p.method = some mname) (hne : ¬ mname = "") (ha : allowedMethod mname = true)
    (he : p.error = none) :
    filterRequestResponse reg selfId tm (Payload.single p) none tab
      = (tm, some (Payload.single p)) := by
  by_cases hp : isPrivileged reg selfId = true
  · simp [filterRequestResponse, hp]
  · simp [filterRequestResponse, hp, testPayload, he, truthyStr, truthyResult, hm, hne, ha]

theorem sendRequest_single_pass (reg : WndReg) (selfId : Nat) (sync : Bool)
    (tab : Option Tab) (p : RpcMsg) (tm : Templates) (evs : List GateEvent)
    (cf : Option JParam → Option SolcOut)
    (hfil : filterRequestResponse reg selfId tm (Payload.single p) none tab
      = (tm, some (Payload.single p))) :
    sendRequest reg selfId sync tab (Payload.single p) tm evs cf
      = runGate sync (Payload.single p) (Payload.single p) tm evs cf := by
  simp [sendRequest, hfil, payloadIsEmpty]

theorem runGate_single_sendtx (sync : Bool) (p : RpcMsg) (tm : Templates)
    (evs : List GateEvent) (cf : Option JParam → Option SolcOut)
    (hm : p.method = some "eth_sendTransaction") :
    runGate sync (Payload.single p) (Payload.single p) tm evs cf
      = (gateRun p evs).outs.foldl (dispatchFold sync (Payload.single p)) ([], tm) := by
  simp [runGate, checkRequests, hm]

/-- C4 amended: a single `eth_sendTransaction` request produces no socket
write and no response while no confirmation signal has arrived; an approval
decision with amended gas `g` (nonzero, the code treats a falsy result as
denial) leads, when the request id is truthy, to exactly one socket write
whose first transaction parameter carries `gas = g`, while a falsy request
id (0, empty string, absent) makes `var id = result.id || result[0].id`
(line 892) throw a TypeError and nothing is written nor delivered; a denial
decision, and likewise a window close without decision, leads to no socket
write and a synthesized `Transaction denied` error (code -32603) carrying
the original request id, delivered on the original channel. -/
theorem c4_sendtx_confirmation (reg : WndReg) (selfId : Nat) (sync : Bool)
    (tab : Option Tab) (tm : Templates) (p : RpcMsg) (t : TxObj) (rest : List JParam)
    (cf : Option JParam → Option SolcOut)
    (hm : p.method = some "eth_sendTransaction") (he : p.error = none)
    (hp : p.params = JParam.tx t :: rest)
    (hu : tm.errorUnlock.error = some { code := -32603, message := "Transaction denied" }) :
    (sendRequest reg selfId sync tab (Payload.single p) tm [] cf = ([], tm)) ∧
    (∀ g evs, ¬ g = 0 → truthyId p.id = true →
      sendRequest reg selfId sync tab (Payload.single p) tm
          (GateEvent.decision true false (some g) :: evs) cf
        = ([Output.write (Payload.single
            { p with params := JParam.tx { t with gas := some g } :: rest })], tm)) ∧
    (∀ g evs, ¬ g = 0 → truthyId p.id = false →
      sendRequest reg selfId sync tab (Payload.single p) tm
          (GateEvent.decision true false (some g) :: evs) cf
        = ([], tm)) ∧
    (∀ err res evs, (err || !truthyGas res) = true →
      sendRequest reg selfId sync tab (Payload.single p) tm
          (GateEvent.decision true err res :: evs) cf
        = ([Output.respond sync (Payload.single (makeError p tm.errorUnlock))],
           tm.set TRef.unlock (makeError p tm.errorUnlock))) ∧
    (∀ evs,
      sendRequest reg selfId sync tab (Payload.single p) tm (GateEvent.closed :: evs) cf
        = ([Output.respond sync (Payload.single (makeError p tm.errorUnlock))],
           tm.set TRef.unlock (makeError p tm.errorUnlock))) ∧
    (makeError p tm.errorUnlock).id = p.id ∧
    (makeError p tm.errorUnlock).error = some { code := -32603, message := "Transaction denied" } := by
  have hfil := filter_single_allowed reg selfId tm tab p "eth_sendTransaction" hm
    (by decide) (by decide) he
  have hsr : ∀ evs, sendRequest reg selfId sync tab (Payload.single p) tm evs cf
      = (gateRun p evs).outs.foldl (dispatchFold sync (Payload.single p)) ([], tm) := by
    intro evs
    rw [sendRequest_single_pass reg selfId sync tab p tm evs cf hfil,
      runGate_single_sendtx sync p tm evs cf hm]
  refine ⟨?_, ?_, ?_, ?_, ?_, makeError_id p _, ?_⟩
  · rw [hsr]
    simp [gateRun, gateInit]
  · intro g evs hg hid
    rw [hsr, gateRun_approval_first p t rest g hp hg evs]
    simp [dispatchFold, cbDispatch, payloadIsEmpty, hid]
  · intro g evs hg hid
    rw [hsr, gateRun_approval_first p t rest g hp hg evs]
    simp [dispatchFold, cbDispatch, payloadIsEmpty, hid]
  · intro err res evs hd
    rw [hsr, gateRun_denial_first p err res hd evs]
    simp [dispatchFold, cbDispatch, returnError, Templates.get]
  · intro evs
    rw [hsr, gateRun_closed_first p evs]
    simp [dispatchFold, cbDispatch, returnError, Templates.get]
  · exact makeError_error_noquote p _ _ hu (by decide)

/-- C4 counterexample: the claim as stated is false for a request whose id
is falsy.  A concrete `eth_sendTransaction` request with id 0, approved with
amended gas 21000, is never written to the socket (and the caller receives
nothing): the success callback dies on `result[0].id` at line 892 before the
write, so no request with `params[0].gas = 21000` reaches the daemon. -/
theorem c4_sendtx_confirmation_counterexample :
    sendRequest ⟨some 1, some (some "webview")⟩ 5 true none
        (Payload.single (RpcMsg.mk (JsonId.num 0) (some "eth_sendTransaction")
          [JParam.tx (TxObj.mk none "tx")] none none))
        initTemplates [GateEvent.decision true false (some 21000)] (fun _ => none)
      = ([], initTemplates) := by
  decide

/-- C4 witness: a concrete transaction request approved with gas 21000 is
written to the socket with `params[0].gas = 21000`. -/
theorem c4_sendtx_confirmation_witness :
    ¬ (21000 : Nat) = 0 ∧
    sendRequest ⟨some 1, some (some "webview")⟩ 5 true none
        (Payload.single (RpcMsg.mk (JsonId.num 3) (some "eth_sendTransaction")
          [JParam.tx (TxObj.mk none "tx")] none none))
        initTemplates [GateEvent.decision true false (some 21000)] (fun _ => none)
      = ([Output.write (Payload.single (RpcMsg.mk (JsonId.num 3) (some "eth_sendTransaction")
            [JParam.tx (TxObj.mk (some 21000) "tx")] none none))],
         initTemplates) := by
  refine ⟨by decide, ?_⟩
  have h := c4_sendtx_confirmation ⟨some 1, some (some "webview")⟩ 5 true none initTemplates
    (RpcMsg.mk (JsonId.num 3) (some "eth_sendTransaction")
      [JParam.tx (TxObj.mk none "tx")] none none)
    (TxObj.mk none "tx") [] (fun _ => none) rfl rfl rfl rfl
  exact h.2.1 21000 [] (by decide) (by decide)

/-- C5: the callback of the confirmation gate fires at most once over any
sequence of `closed` and `backendAction_unlockedAccount` signals, and the
first effective signal determines the resolution: a `closed` arriving first
latches the denial resolution and every later signal is ignored, as does a
denial decision arriving first. -/
theorem c5_gate_one_shot :
    (∀ m evs, (gateRun m evs).outs.length ≤ 1) ∧
    (∀ m evs, (gateRun m (GateEvent.closed :: evs)).outs = [GateOut.cbErr TRef.unlock]) ∧
    (∀ m err res evs, (err || !truthyGas res) = true →
      (gateRun m (GateEvent.decision true err res :: evs)).outs
        = [GateOut.cbErr TRef.unlock]) :=
  ⟨gateRun_le_one, gateRun_closed_first,
   fun m err res evs h => gateRun_denial_first m err res h evs⟩

/-- C5 witness: a denial decision racing a later close and a later (stale)
approval still yields exactly the one denial resolution. -/
theorem c5_gate_one_shot_witness :
    ((true : Bool) || !truthyGas (some 21000)) = true ∧
    (gateRun (RpcMsg.mk (JsonId.num 9) (some "eth_sendTransaction")
        [JParam.tx (TxObj.mk none "tx")] none none)
      (GateEvent.decision true true (some 21000)
        :: [GateEvent.closed, GateEvent.decision true false (some 21000)])).outs
      = [GateOut.cbErr TRef.unlock] :=
  ⟨by decide,
   c5_gate_one_shot.2.2 _ true (some 21000)
     [GateEvent.closed, GateEvent.decision true false (some 21000)] (by decide)⟩

/-- C2: for an untrusted (webview) view, an `eth_accounts` response is
rewritten so that the delivered result list is the underscore intersection of
the daemon result list with the recorded allowed-account set of the view, and
the empty list when no account permission is recorded; hence every delivered
account lies in the allowed set. -/
theorem c2_accounts_narrowing (reg : WndReg) (selfId : Nat) (tm : Templates)
    (tab : Option Tab) (xs : List String) (i reqId : JsonId) (rps : List JParam)
    (hpriv : isPrivileged reg selfId = false) :
    filterRequestResponse reg selfId tm
        (Payload.single (RpcMsg.mk i none [] (some (JVal.arr xs)) none))
        (some (Payload.single (RpcMsg.mk reqId (some "eth_accounts") rps none none))) tab
      = (tm, some (Payload.single
          (RpcMsg.mk i none [] (some (JVal.arr (narrowAccounts tab (some (JVal.arr xs))))) none))) ∧
    (∀ accts, tabAccounts tab = some accts →
      narrowAccounts tab (some (JVal.arr xs)) = jsIntersection xs accts) ∧
    (tabAccounts tab = none → narrowAccounts tab (some (JVal.arr xs)) = []) ∧
    (∀ accts, tabAccounts tab = some accts →
      ∀ a ∈ narrowAccounts tab (some (JVal.arr xs)), a ∈ accts) := by
  refine ⟨?_, ?_, ?_, ?_⟩
  · simp [filterRequestResponse, hpriv, testPayload, truthyStr, truthyResult]
  · intro accts h
    simp [narrowAccounts, h, resultArr]
  · intro h
    simp [narrowAccounts, h]
  · intro accts h a ha
    rw [narrowAccounts, h] at ha
    exact jsIntersection_sub _ _ _ ha

/-- C2 witness: daemon accounts AAA,BBB,CCC with permission {AAA} narrow to
[AAA]; with no recorded permission they narrow to []. -/
theorem c2_accounts_narrowing_witness :
    isPrivileged ⟨some 1, some (some "webview")⟩ 5 = false ∧
    filterRequestResponse ⟨some 1, some (some "webview")⟩ 5 initTemplates
        (Payload.single (RpcMsg.mk (JsonId.num 2) none []
          (some (JVal.arr ["0xAAA", "0xBBB", "0xCCC"])) none))
        (some (Payload.single (RpcMsg.mk (JsonId.num 2) (some "eth_accounts") [] none none)))
        (some (Tab.mk (some (Perms.mk (some ["0xAAA"])))))
      = (initTemplates, some (Payload.single (RpcMsg.mk (JsonId.num 2) none []
          (some (JVal.arr (narrowAccounts (some (Tab.mk (some (Perms.mk (some ["0xAAA"])))))
            (some (JVal.arr ["0xAAA", "0xBBB", "0xCCC"]))))) none))) ∧
    narrowAccounts (some (Tab.mk (some (Perms.mk (some ["0xAAA"])))))
        (some (JVal.arr ["0xAAA", "0xBBB", "0xCCC"])) = ["0xAAA"] ∧
    narrowAccounts none (some (JVal.arr ["0xAAA", "0xBBB", "0xCCC"])) = [] :=
  ⟨by decide,
   (c2_accounts_narrowing ⟨some 1, some (some "webview")⟩ 5 initTemplates
     (some (Tab.mk (some (Perms.mk (some ["0xAAA"]))))) ["0xAAA", "0xBBB", "0xCCC"]
     (JsonId.num 2) (JsonId.num 2) [] (by decide)).1,
   by decide, by decide⟩

/-- C3: a batch payload containing an `eth_sendTransaction` element makes
the gate resolve the whole request with the batch-denied error (code -32603,
`Transactions denied, sendTransaction is not allowed in batch requests.`),
with no element written to the socket; a non-empty batch without a
`sendTransaction` element is handed to the socket write unchanged. -/
theorem c3_batch_sendtx (sync : Bool) (tm : Templates) (ms : List RpcMsg)
    (evs : List GateEvent) (cf : Option JParam → Option SolcOut)
    (hst : (ms.any (fun m => decide (m.method = some "eth_sendTransaction"))) = true)
    (htm : tm.errorSendTxBatch.error = some (RpcErr.mk (-32603)
      "Transactions denied, sendTransaction is not allowed in batch requests.")) :
    runGate sync (Payload.batch ms) (Payload.batch ms) tm evs cf
      = ([Output.respond sync (Payload.batch
          (List.replicate ms.length (foldedErr ms tm.errorSendTxBatch)))],
         tm.set TRef.sendTxBatch (foldedErr ms tm.errorSendTxBatch)) ∧
    (foldedErr ms tm.errorSendTxBatch).error
      = some (RpcErr.mk (-32603)
        "Transactions denied, sendTransaction is not allowed in batch requests.") ∧
    (∀ sync2 tm2 ms2 evs2 cf2, ¬ ms2 = [] →
      (ms2.any (fun m => decide (m.method = some "eth_sendTransaction"))) = false →
      runGate sync2 (Payload.batch ms2) (Payload.batch ms2) tm2 evs2 cf2
        = ([Output.write (Payload.batch ms2)], tm2)) := by
  refine ⟨?_, ?_, ?_⟩
  · simp [runGate, checkRequests, hst, dispatchFold, cbDispatch, returnError, Templates.get]
  · exact foldedErr_error_noquote ms _ _ htm (by decide)
  · intro sync2 tm2 ms2 evs2 cf2 hne hno
    simp [runGate, checkRequests, hno, dispatchFold, cbDispatch, payloadIsEmpty, hne]

/-- C3 witness: a concrete two-element batch with one `eth_sendTransaction`
is wholly denied; its hypotheses hold at the initial templates. -/
theorem c3_batch_sendtx_witness :
    ([RpcMsg.mk (JsonId.num 1) (some "eth_getBalance") [] none none,
      RpcMsg.mk (JsonId.num 2) (some "eth_sendTransaction") [] none none].any
        (fun m => decide (m.method = some "eth_sendTransaction"))) = true ∧
    runGate true
        (Payload.batch [RpcMsg.mk (JsonId.num 1) (some "eth_getBalance") [] none none,
          RpcMsg.mk (JsonId.num 2) (some "eth_sendTransaction") [] none none])
        (Payload.batch [RpcMsg.mk (JsonId.num 1) (some "eth_getBalance") [] none none,
          RpcMsg.mk (JsonId.num 2) (some "eth_sendTransaction") [] none none])
        initTemplates [] (fun _ => none)
      = ([Output.respond true (Payload.batch (List.replicate 2
          (foldedErr [RpcMsg.mk (JsonId.num 1) (some "eth_getBalance") [] none none,
            RpcMsg.mk (JsonId.num 2) (some "eth_sendTransaction") [] none none]
            initTemplates.errorSendTxBatch)))],
         initTemplates.set TRef.sendTxBatch
           (foldedErr [RpcMsg.mk (JsonId.num 1) (some "eth_getBalance") [] none none,
             RpcMsg.mk (JsonId.num 2) (some "eth_sendTransaction") [] none none]
             initTemplates.errorSendTxBatch)) :=
  ⟨by decide,
   (c3_batch_sendtx true initTemplates
     [RpcMsg.mk (JsonId.num 1) (some "eth_getBalance") [] none none,
      RpcMsg.mk (JsonId.num 2) (some "eth_sendTransaction") [] none none]
     [] (fun _ => none) (by decide) (by decide)).1⟩

/-- C6: a single `eth_compileSolidity` request is never written to the
socket: the external compiler runs locally and the caller receives, on the
same sync/async channel used for daemon responses (`Output.respond` models
`event.returnValue` / `ipcProvider-data`), a result envelope with the
compiled contracts and the original id on success, or a -32700 error
envelope carrying the compiler diagnostics (or `Compile error` for a falsy
output) and the original id on failure. -/
theorem c6_compile_local (reg : WndReg) (selfId : Nat) (sync : Bool)
    (tab : Option Tab) (tm : Templates) (p : RpcMsg) (evs : List GateEvent)
    (cf : Option JParam → Option SolcOut)
    (hm : p.method = some "eth_compileSolidity") (he : p.error = none) :
    sendRequest reg selfId sync tab (Payload.single p) tm evs cf
      = ([Output.respond sync (Payload.single (compileResponse p (cf p.params.head?)))], tm) ∧
    (compileResponse p (cf p.params.head?)).id = p.id ∧
    (∀ o, cf p.params.head? = some o → truthyStr o.errors = false →
      compileResponse p (cf p.params.head?)
        = RpcMsg.mk p.id none [] (some (JVal.obj o.contracts)) none) ∧
    (∀ o erro, cf p.params.head? = some o → o.errors = some erro → ¬ erro = "" →
      compileResponse p (cf p.params.head?)
        = RpcMsg.mk p.id none [] none (some (RpcErr.mk (-32700) erro))) ∧
    (cf p.params.head? = none →
      compileResponse p (cf p.params.head?)
        = RpcMsg.mk p.id none [] none (some (RpcErr.mk (-32700) "Compile error"))) := by
  have hfil := filter_single_allowed reg selfId tm tab p "eth_compileSolidity" hm
    (by decide) (by decide) he
  refine ⟨?_, ?_, ?_, ?_, ?_⟩
  · rw [sendRequest_single_pass reg selfId sync tab p tm evs cf hfil]
    simp [runGate, checkRequests, hm, dispatchFold, cbDispatch]
  · cases h : cf p.params.head? with
    | none => simp [compileResponse]
    | some o =>
      by_cases he2 : truthyStr o.errors = true <;> simp [compileResponse, he2]
  · intro o ho hoe
    simp [compileResponse, ho, hoe]
  · intro o erro ho hoe hne
    simp [compileResponse, ho, hoe, truthyStr, hne]
  · intro h
    simp [compileResponse, h]

/-- C6 witness: a concrete compile request with a failing compiler output is
answered locally with a -32700 diagnostics envelope and no socket write. -/
theorem c6_compile_local_witness :
    (RpcMsg.mk (JsonId.num 4) (some "eth_compileSolidity") [JParam.str "contract x"]
      none none).method = some "eth_compileSolidity" ∧
    sendRequest ⟨some 1, some (some "webview")⟩ 5 false none
        (Payload.single (RpcMsg.mk (JsonId.num 4) (some "eth_compileSolidity")
          [JParam.str "contract x"] none none))
        initTemplates []
        (fun _ => some (SolcOut.mk (some "ParserError: oops") ""))
      = ([Output.respond false (Payload.single (compileResponse
           (RpcMsg.mk (JsonId.num 4) (some "eth_compileSolidity")
             [JParam.str "contract x"] none none)
           (some (SolcOut.mk (some "ParserError: oops") ""))))],
         initTemplates) :=
  ⟨rfl,
   (c6_compile_local ⟨some 1, some (some "webview")⟩ 5 false none initTemplates
     (RpcMsg.mk (JsonId.num 4) (some "eth_compileSolidity") [JParam.str "contract x"] none none)
     [] (fun _ => some (SolcOut.mk (some "ParserError: oops") "")) rfl rfl).1⟩

/-- C10: error synthesis reuses one shared mutable template per error kind.
For a batch of n requests, `returnError` yields n aliases of the one
template object, so the observed array is n copies of the final template
state, whose id is the id of the last request (the ids of the other n-1
requests are lost); concretely, a two-element batch over the timeout
template yields two copies carrying the id of the second request; and a
later `makeError` call observes the message left behind by an earlier call
(the method `a2_b` written by the first call cannot be matched again by the
quoted-run regex, so the second error still names `a2_b`). -/
theorem c10_shared_error_template (m0 : RpcMsg) (ms : List RpcMsg) (t : TRef) (tm : Templates) :
    (returnError (Payload.batch (m0 :: ms)) t tm).2
      = Payload.batch (List.replicate (m0 :: ms).length (foldedErr (m0 :: ms) (tm.get t))) ∧
    (foldedErr (m0 :: ms) (tm.get t)).id = ((m0 :: ms).getLast (List.cons_ne_nil m0 ms)).id ∧
    (returnError (Payload.batch [RpcMsg.mk (JsonId.num 1) (some "eth_call") [] none none,
        RpcMsg.mk (JsonId.num 2) (some "eth_sign") [] none none]) TRef.timeout initTemplates).2
      = Payload.batch (List.replicate 2 (RpcMsg.mk (JsonId.num 2) none [] none
          (some (RpcErr.mk (-32603) "Request timed out for method  \x27eth_sign\x27.")))) ∧
    (makeError (RpcMsg.mk (JsonId.num 5) (some "eth_call") [] none none)
        (makeError (RpcMsg.mk (JsonId.num 1) (some "a2_b") [] none none)
          initTemplates.errorTimeout)).error
      = some (RpcErr.mk (-32603) "Request timed out for method  \x27a2_b\x27.") := by
  refine ⟨rfl, ?_, by decide, by decide⟩
  rw [foldedErr_id]
  simp [lastIdOr, List.getLast?_eq_getLast]

theorem stoppingIter_mk (a b : Nat) : (stoppingIter (mkClassConnEntry a b)).1 = [] := rfl

theorem connectedIter_mk (a b : Nat) (s : Bool) :
    (connectedIter (mkClassConnEntry a b) s).1 = [] := by
  cases s <;> rfl

/-- C9 (code bug): for every registry of connection entries as
`_createConnection` builds them (`{ owner: wnd, socket: socket }`, no
`sender` field), neither the STOPPING branch nor the CONNECTED branch of
`_onNodeStateChanged` delivers a single `setWritable` message to any owner:
each per-item handler evaluates `item.sender.getId()` (a TypeError on the
undefined `sender`) before `item.owner.send(...)` can run, so the code does
not implement the behaviour the claim (and the spec, and the surrounding
log messages) describe. -/
theorem c9_lifecycle_no_owner_messages (ws : List (Nat × Nat)) (succ : Nat → Bool) :
    onNodeStateStoppingSends (ws.map (fun w => mkClassConnEntry w.1 w.2)) = [] ∧
    onNodeStateConnectedSends (ws.map (fun w => mkClassConnEntry w.1 w.2)) succ = [] := by
  constructor
  · induction ws with
    | nil => rfl
    | cons w rest ih =>
      simp only [onNodeStateStoppingSends, List.map_cons, List.flatten_cons] at ih ⊢
      rw [stoppingIter_mk, List.nil_append]
      exact ih
  · induction ws with
    | nil => rfl
    | cons w rest ih =>
      simp only [onNodeStateConnectedSends, List.map_cons, List.flatten_cons] at ih ⊢
      rw [connectedIter_mk, List.nil_append]
      exact ih

theorem aerase_mem (k : JsonId) (l : List (JsonId × PendEv)) (e : JsonId × PendEv)
    (h : e ∈ aerase k l) : e ∈ l ∧ ¬ e.1 = k := by
  have := List.mem_filter.mp h
  exact ⟨this.1, by simpa using this.2⟩

theorem eraseFold_nil (ks : List JsonId) (l : List (JsonId × PendEv))
    (h : ∀ e ∈ l, e.1 ∈ ks) : ks.foldl (fun m k => aerase k m) l = [] := by
  induction ks generalizing l with
  | nil =>
    cases l with
    | nil => rfl
    | cons e rest => exact absurd (h e (List.mem_cons_self e rest)) (List.not_mem_nil e.1)
  | cons k ks ih =>
    rw [List.foldl_cons]
    apply ih
    intro e he
    have hm := aerase_mem k l e he
    rcases List.mem_cons.mp (h e hm.1) with h1 | h1
    · exact absurd h1 hm.2
    · exact h1

theorem purge_eq_nil (l : List (JsonId × PendEv)) : purge l = [] := by
  apply eraseFold_nil
  intro e he
  exact List.mem_map_of_mem Prod.fst he

theorem lastIdOr_indep (m : RpcMsg) (ms : List RpcMsg) (d1 d2 : JsonId) :
    lastIdOr (m :: ms) d1 = lastIdOr (m :: ms) d2 := by
  simp only [lastIdOr]
  rcases h : (m :: ms).getLast? with _ | x
  · exact absurd (List.getLast?_eq_none_iff.mp h) (List.cons_ne_nil m ms)
  · rfl

theorem idsOf_returnError (p : Payload) (t : TRef) (tm : Templates) :
    idsOfP (returnError p t tm).2 = errIdsOf p := by
  cases p with
  | single m => simp [returnError, idsOfP, msgsOfP, errIdsOf, makeError_id]
  | batch ms =>
    simp only [returnError, idsOfP, msgsOfP, errIdsOf, List.map_replicate]
    cases ms with
    | nil => rfl
    | cons m rest =>
      rw [foldedErr_id, lastIdOr_indep m rest _ JsonId.undef]

theorem returnError_code (p : Payload) (t : TRef) (tm : Templates) (c : Int)
    (h : ((tm.get t).error).map RpcErr.code = some c) :
    (∀ m ∈ msgsOfP (returnError p t tm).2, (m.error).map RpcErr.code = some c) ∧
    (((returnError p t tm).1.get t).error).map RpcErr.code = some c := by
  cases p with
  | single m0 =>
    constructor
    · intro m hm
      simp only [returnError, msgsOfP, List.mem_singleton] at hm
      subst hm
      rw [makeError_error_code]
      exact h
    · simp only [returnError, Templates.get_set]
      rw [makeError_error_code]
      exact h
  | batch ms =>
    constructor
    · intro m hm
      simp only [returnError, msgsOfP] at hm
      have := List.eq_of_mem_replicate hm
      subst this
      rw [foldedErr_error_code]
      exact h
    · simp only [returnError, Templates.get_set]
      rw [foldedErr_error_code]
      exact h

theorem timeoutPass_cons_dead (isAsync : Bool) (k : JsonId) (ev : PendEv)
    (rest : List (JsonId × PendEv)) (tm : Templates) (h : ev.senderDestroyed = true) :
    timeoutPass isAsync ((k, ev) :: rest) tm = timeoutPass isAsync rest tm := by
  simp [timeoutPass, h]

theorem timeoutPass_cons_live (isAsync : Bool) (k : JsonId) (ev : PendEv)
    (rest : List (JsonId × PendEv)) (tm : Templates) (h : ev.senderDestroyed = false) :
    timeoutPass isAsync ((k, ev) :: rest) tm
      = ((if isAsync then TDeliv.push (returnError ev.payload TRef.timeout tm).2
          else TDeliv.retVal (returnError ev.payload TRef.timeout tm).2)
           :: (timeoutPass isAsync rest (returnError ev.payload TRef.timeout tm).1).1,
         (timeoutPass isAsync rest (returnError ev.payload TRef.timeout tm).1).2) := by
  simp [timeoutPass, h]

theorem liveOf_cons_dead (k : JsonId) (ev : PendEv) (rest : List (JsonId × PendEv))
    (h : ev.senderDestroyed = true) : liveOf ((k, ev) :: rest) = liveOf rest := by
  simp [liveOf, List.filter_cons, h]

theorem liveOf_cons_live (k : JsonId) (ev : PendEv) (rest : List (JsonId × PendEv))
    (h : ev.senderDestroyed = false) :
    liveOf ((k, ev) :: rest) = (k, ev) :: liveOf rest := by
  simp [liveOf, List.filter_cons, h]

theorem timeoutPass_sig (isAsync : Bool) (l : List (JsonId × PendEv)) :
    ∀ tm, (timeoutPass isAsync l tm).1.map delivSig
      = (liveOf l).map (fun e => (isAsync, errIdsOf e.2.payload)) := by
  induction l with
  | nil => intro tm; rfl
  | cons e rest ih =>
    obtain ⟨k, ev⟩ := e
    intro tm
    rcases hd : ev.senderDestroyed with _ | _
    · rw [timeoutPass_cons_live isAsync k ev rest tm hd, liveOf_cons_live k ev rest hd,
        List.map_cons, List.map_cons, ih]
      cases isAsync <;> simp [delivSig, idsOf_returnError]
    · rw [timeoutPass_cons_dead isAsync k ev rest tm hd, liveOf_cons_dead k ev rest hd, ih]

theorem timeoutPass_code (isAsync : Bool) (l : List (JsonId × PendEv)) (c : Int) :
    ∀ tm, ((tm.get TRef.timeout).error).map RpcErr.code = some c →
      ((∀ d ∈ (timeoutPass isAsync l tm).1, ∀ m ∈ msgsOfP (delivPayload d),
        (m.error).map RpcErr.code = some c) ∧
      (((timeoutPass isAsync l tm).2.get TRef.timeout).error).map RpcErr.code = some c) := by
  induction l with
  | nil =>
    intro tm h
    exact ⟨fun d hd => absurd hd (List.not_mem_nil d), h⟩
  | cons e rest ih =>
    obtain ⟨k, ev⟩ := e
    intro tm h
    rcases hd : ev.senderDestroyed with _ | _
    · have hre := returnError_code ev.payload TRef.timeout tm c h
      have hrest := ih (returnError ev.payload TRef.timeout tm).1 hre.2
      rw [timeoutPass_cons_live isAsync k ev rest tm hd]
      refine ⟨?_, hrest.2⟩
      intro d hd2
      rcases List.mem_cons.mp hd2 with rfl | hd3
      · cases isAsync <;> simpa [delivPayload] using hre.1
      · exact hrest.1 d hd3
    · rw [timeoutPass_cons_dead isAsync k ev rest tm hd]
      exact ih tm h

/-- C7: after a socket-level timeout, the `timeout` method resolves every
pending call on the connection — each live async entry receives exactly one
`ipcProvider-data` push and each live sync entry exactly one
`event.returnValue` assignment, in iteration order, carrying a -32603
timeout error built from its own registered payload (its ids are derived
from that payload per call, since each error is stringified before the next
template mutation) — and both pending maps are empty afterwards. -/
theorem c7_timeout_cleanup (asyncs syncs : List (JsonId × PendEv)) (tm : Templates)
    (hc : ((tm.get TRef.timeout).error).map RpcErr.code = some (-32603)) :
    (connTimeout asyncs syncs tm).2.2.1 = [] ∧
    (connTimeout asyncs syncs tm).2.2.2 = [] ∧
    (connTimeout asyncs syncs tm).1.map delivSig
      = (liveOf asyncs).map (fun e => (true, errIdsOf e.2.payload))
        ++ (liveOf syncs).map (fun e => (false, errIdsOf e.2.payload)) ∧
    (∀ d ∈ (connTimeout asyncs syncs tm).1, ∀ m ∈ msgsOfP (delivPayload d),
      (m.error).map RpcErr.code = some (-32603)) := by
  have h1 := timeoutPass_code true asyncs (-32603) tm hc
  have h2 := timeoutPass_code false syncs (-32603) (timeoutPass true asyncs tm).2 h1.2
  refine ⟨purge_eq_nil asyncs, purge_eq_nil syncs, ?_, ?_⟩
  · simp only [connTimeout, List.map_append]
    rw [timeoutPass_sig true asyncs tm, timeoutPass_sig false syncs _]
  · intro d hd
    simp only [connTimeout, List.mem_append] at hd
    rcases hd with hd | hd
    · exact h1.1 d hd
    · exact h2.1 d hd

/-- C7 witness: one async and one sync pending call at the initial template
state both resolve and the maps are empty. -/
theorem c7_timeout_cleanup_witness :
    ((initTemplates.get TRef.timeout).error).map RpcErr.code = some (-32603) ∧
    (connTimeout
      [(JsonId.num 1, PendEv.mk false false (JsonId.num 1)
        (Payload.single (RpcMsg.mk (JsonId.num 1) (some "eth_call") [] none none)))]
      [(JsonId.num 2, PendEv.mk false true (JsonId.num 2)
        (Payload.single (RpcMsg.mk (JsonId.num 2) (some "eth_sign") [] none none)))]
      initTemplates).2.2.1 = [] :=
  ⟨by decide,
   (c7_timeout_cleanup
     [(JsonId.num 1, PendEv.mk false false (JsonId.num 1)
       (Payload.single (RpcMsg.mk (JsonId.num 1) (some "eth_call") [] none none)))]
     [(JsonId.num 2, PendEv.mk false true (JsonId.num 2)
       (Payload.single (RpcMsg.mk (JsonId.num 2) (some "eth_sign") [] none none)))]
     initTemplates (by decide)).1⟩

theorem alookup_some_mem (k : JsonId) (l : List (JsonId × PendEv)) (v : PendEv)
    (h : alookup k l = some v) : (k, v) ∈ l := by
  induction l with
  | nil => exact absurd h (by simp [alookup])
  | cons e rest ih =>
    by_cases he : e.1 = k
    · rw [alookup, if_pos he] at h
      obtain ⟨e1, e2⟩ := e
      simp only at he h
      subst he
      cases Option.some.inj h
      exact List.mem_cons_self _ rest
    · rw [alookup, if_neg he] at h
      exact List.mem_cons_of_mem e (ih h)

theorem count_fst_aerase (k i : JsonId) (l : List (JsonId × PendEv)) :
    ((aerase k l).map Prod.fst).count i
      = if i = k then 0 else (l.map Prod.fst).count i := by
  induction l with
  | nil => simp [aerase]
  | cons e rest ih =>
    have hcons : ((e :: rest).map Prod.fst).count i
        = (rest.map Prod.fst).count i + (if e.1 = i then 1 else 0) := by
      simp [List.count_cons]
    by_cases hek : e.1 = k
    · have hdrop : aerase k (e :: rest) = aerase k rest := by
        simp [aerase, List.filter_cons, hek]
      rw [hdrop, ih, hcons]
      by_cases hik : i = k
      · simp [hik]
      · have hne : ¬ e.1 = i := fun hc => hik (by rw [← hc, hek])
        simp [hik, hne]
    · have hkeep : aerase k (e :: rest) = e :: aerase k rest := by
        simp [aerase, List.filter_cons, hek]
      have hcons2 : ((e :: aerase k rest).map Prod.fst).count i
          = ((aerase k rest).map Prod.fst).count i + (if e.1 = i then 1 else 0) := by
        simp [List.count_cons]
      rw [hkeep, hcons2, ih, hcons]
      by_cases hik : i = k
      · have hne : ¬ e.1 = i := fun hc => hek (by rw [hc, hik])
        simp [hik, hne, hek]
      · simp [hik]

theorem lookupBoth_cases (st : ConnState) (i k : JsonId) (ev : PendEv)
    (h : lookupBoth st i = some (k, ev)) :
    k = i ∧ (alookup k st.syncs = some ev ∨
      (alookup k st.syncs = none ∧ alookup k st.asyncs = some ev)) := by
  rcases h1 : alookup i st.syncs with _ | v
  · rcases h2 : alookup i st.asyncs with _ | v
    · rw [lookupBoth, h1, h2] at h
      exact absurd h (by simp)
    · rw [lookupBoth, h1, h2] at h
      have := Option.some.inj h
      cases this
      exact ⟨rfl, Or.inr ⟨h1, h2⟩⟩
  · rw [lookupBoth, h1] at h
    have := Option.some.inj h
    cases this
    exact ⟨rfl, Or.inl h1⟩

theorem getResponseEvent_lookup (st : ConnState) (resp : Payload) (k : JsonId) (ev : PendEv)
    (h : getResponseEvent st resp = some (k, ev)) :
    alookup k st.syncs = some ev ∨
      (alookup k st.syncs = none ∧ alookup k st.asyncs = some ev) := by
  cases resp with
  | single m => exact (lookupBoth_cases st m.id k ev h).2
  | batch ms =>
    rw [getResponseEvent] at h
    rcases hf : ms.find? (fun load =>
        (alookup load.id st.syncs).isSome || (alookup load.id st.asyncs).isSome) with _ | m
    · rw [hf] at h
      exact absurd h (by simp)
    · rw [hf] at h
      exact (lookupBoth_cases st m.id k ev h).2

theorem count_singleton_fst (k : JsonId) (b : Bool) (i : JsonId) :
    (([(k, b)] : List (JsonId × Bool)).map Prod.fst).count i
      = if k = i then 1 else 0 := by
  simp [List.count_cons]

theorem map_fst_tag (l : List (JsonId × PendEv)) :
    ((l.map (fun e => (e.1, !e.2.senderDestroyed))).map Prod.fst) = l.map Prod.fst := by
  induction l with
  | nil => rfl
  | cons e rest ih => simp [ih]

theorem connStep_count (st : ConnState) (e : ConnEvent) (h : ConnInv st) (i : JsonId) :
    ((connStep st e).2.map Prod.fst).count i + (pendingIds (connStep st e).1).count i
      = (pendingIds st).count i := by
  cases e with
  | sockTimeout =>
    simp only [connStep, pendingIds]
    rw [purge_eq_nil, purge_eq_nil]
    rw [List.map_append, map_fst_tag st.asyncs, map_fst_tag st.syncs]
    simp [List.count_append]
    omega
  | respond resp =>
    rcases hg : getResponseEvent st resp with _ | kev
    · simp [connStep, hg]
    · obtain ⟨k, ev⟩ := kev
      rcases getResponseEvent_lookup st resp k ev hg with hs | ⟨hs, ha⟩
      · have hmem := alookup_some_mem k st.syncs ev hs
        have hsync : ev.sync = true := (h.2.1 (k, ev) hmem).1
        have hid : ev.eventId = k := (h.2.1 (k, ev) hmem).2
        have hcS : (st.syncs.map Prod.fst).count k = 1 := by
          have hnd : (st.syncs.map Prod.fst).Nodup := by
            have h1 := h.1
            rw [pendingIds, List.nodup_append] at h1
            exact h1.1
          exact List.count_eq_one_of_mem hnd (List.mem_map_of_mem Prod.fst hmem)
        have hstep : connStep st (ConnEvent.respond resp)
            = (ConnState.mk (aerase k st.syncs) st.asyncs, [(k, !ev.senderDestroyed)]) := by
          simp [connStep, hg, hsync, hid]
        rw [hstep]
        simp only [pendingIds, List.count_append, count_singleton_fst, count_fst_aerase]
        by_cases hik : i = k
        · subst hik
          simp [hcS]
        · have hki : ¬ k = i := fun hc => hik hc.symm
          simp [hik, hki]
      · have hmem := alookup_some_mem k st.asyncs ev ha
        have hsync : ev.sync = false := (h.2.2 (k, ev) hmem).1
        have hid : ev.eventId = k := (h.2.2 (k, ev) hmem).2
        have hcA : (st.asyncs.map Prod.fst).count k = 1 := by
          have hnd : (st.asyncs.map Prod.fst).Nodup := by
            have h1 := h.1
            rw [pendingIds, List.nodup_append] at h1
            exact h1.2.1
          exact List.count_eq_one_of_mem hnd (List.mem_map_of_mem Prod.fst hmem)
        have hstep : connStep st (ConnEvent.respond resp)
            = (ConnState.mk st.syncs (aerase k st.asyncs), [(k, !ev.senderDestroyed)]) := by
          simp [connStep, hg, hsync, hid]
        rw [hstep]
        simp only [pendingIds, List.count_append, count_singleton_fst, count_fst_aerase]
        by_cases hik : i = k
        · subst hik
          simp [hcA]
          omega
        · have hki : ¬ k = i := fun hc => hik hc.symm
          simp [hik, hki]

theorem aerase_sublist (k : JsonId) (l : List (JsonId × PendEv)) :
    (aerase k l).Sublist l :=
  List.filter_sublist l

theorem connStep_inv (st : ConnState) (e : ConnEvent) (h : ConnInv st) :
    ConnInv (connStep st e).1 := by
  cases e with
  | sockTimeout =>
    have : (connStep st ConnEvent.sockTimeout).1 = ConnState.mk [] [] := by
      simp [connStep, purge_eq_nil]
    rw [this]
    exact ⟨by simp [pendingIds], by simp, by simp⟩
  | respond resp =>
    rcases hg : getResponseEvent st resp with _ | kev
    · simpa [connStep, hg] using h
    · obtain ⟨k, ev⟩ := kev
      rcases getResponseEvent_lookup st resp k ev hg with hs | ⟨hs, ha⟩
      · have hmem := alookup_some_mem k st.syncs ev hs
        have hsync : ev.sync = true := (h.2.1 (k, ev) hmem).1
        have hid : ev.eventId = k := (h.2.1 (k, ev) hmem).2
        have hstep : (connStep st (ConnEvent.respond resp)).1
            = ConnState.mk (aerase k st.syncs) st.asyncs := by
          simp [connStep, hg, hsync, hid]
        rw [hstep]
        refine ⟨?_, ?_, ?_⟩
        · have hsub : (pendingIds (ConnState.mk (aerase k st.syncs) st.asyncs)).Sublist
              (pendingIds st) := by
            simp only [pendingIds]
            exact List.Sublist.append_right ((aerase_sublist k st.syncs).map Prod.fst) _
          exact List.Nodup.sublist hsub h.1
        · intro e2 he2
          exact h.2.1 e2 (List.mem_of_mem_filter he2)
        · exact h.2.2
      · have hmem := alookup_some_mem k st.asyncs ev ha
        have hsync : ev.sync = false := (h.2.2 (k, ev) hmem).1
        have hid : ev.eventId = k := (h.2.2 (k, ev) hmem).2
        have hstep : (connStep st (ConnEvent.respond resp)).1
            = ConnState.mk st.syncs (aerase k st.asyncs) := by
          simp [connStep, hg, hsync, hid]
        rw [hstep]
        refine ⟨?_, ?_, ?_⟩
        · have hsub : (pendingIds (ConnState.mk st.syncs (aerase k st.asyncs))).Sublist
              (pendingIds st) := by
            simp only [pendingIds]
            exact List.Sublist.append_left ((aerase_sublist k st.asyncs).map Prod.fst) _
          exact List.Nodup.sublist hsub h.1
        · exact h.2.1
        · intro e2 he2
          exact h.2.2 e2 (List.mem_of_mem_filter he2)

theorem connStep_live (st : ConnState) (e : ConnEvent) (h : ConnLive st) :
    ConnLive (connStep st e).1 ∧ ∀ x ∈ (connStep st e).2, x.2 = true := by
  cases e with
  | sockTimeout =>
    constructor
    · constructor
      · intro e2 he2
        rw [connStep] at he2
        simp only at he2
        rw [purge_eq_nil] at he2
        exact absurd he2 (List.not_mem_nil e2)
      · intro e2 he2
        rw [connStep] at he2
        simp only at he2
        rw [purge_eq_nil] at he2
        exact absurd he2 (List.not_mem_nil e2)
    · intro x hx
      simp only [connStep, List.mem_append, List.mem_map] at hx
      rcases hx with ⟨e2, he2, rfl⟩ | ⟨e2, he2, rfl⟩
      · simp [h.2 e2 he2]
      · simp [h.1 e2 he2]
  | respond resp =>
    rcases hg : getResponseEvent st resp with _ | kev
    · constructor
      · simpa [connStep, hg] using h
      · intro x hx
        simp [connStep, hg] at hx
    · obtain ⟨k, ev⟩ := kev
      have hub : alookup k st.syncs = some ev ∨
          (alookup k st.syncs = none ∧ alookup k st.asyncs = some ev) :=
        getResponseEvent_lookup st resp k ev hg
      have hevlive : ev.senderDestroyed = false := by
        rcases hub with hs | ⟨hs, ha⟩
        · exact h.1 (k, ev) (alookup_some_mem k st.syncs ev hs)
        · exact h.2 (k, ev) (alookup_some_mem k st.asyncs ev ha)
      constructor
      · by_cases hsync : ev.sync = true
        · have hstep : (connStep st (ConnEvent.respond resp)).1
              = ConnState.mk (aerase ev.eventId st.syncs) st.asyncs := by
            simp [connStep, hg, hsync]
          rw [hstep]
          exact ⟨fun e2 he2 => h.1 e2 (List.mem_of_mem_filter he2), h.2⟩
        · have hsync0 : ev.sync = false := by revert hsync; cases ev.sync <;> simp
          have hstep : (connStep st (ConnEvent.respond resp)).1
              = ConnState.mk st.syncs (aerase ev.eventId st.asyncs) := by
            simp [connStep, hg, hsync0]
          rw [hstep]
          exact ⟨h.1, fun e2 he2 => h.2 e2 (List.mem_of_mem_filter he2)⟩
      · intro x hx
        by_cases hsync : ev.sync = true
        · have hstep : (connStep st (ConnEvent.respond resp)).2
              = [(k, !ev.senderDestroyed)] := by
            simp [connStep, hg, hsync]
          rw [hstep] at hx
          rcases List.mem_singleton.mp hx with rfl
          simp [hevlive]
        · have hsync0 : ev.sync = false := by revert hsync; cases ev.sync <;> simp
          have hstep : (connStep st (ConnEvent.respond resp)).2
              = [(k, !ev.senderDestroyed)] := by
            simp [connStep, hg, hsync0]
          rw [hstep] at hx
          rcases List.mem_singleton.mp hx with rfl
          simp [hevlive]

theorem runConn_cons (st : ConnState) (e : ConnEvent) (es : List ConnEvent) :
    runConn st (e :: es)
      = ((runConn (connStep st e).1 es).1,
         (connStep st e).2 ++ (runConn (connStep st e).1 es).2) := rfl

theorem runConn_count (st : ConnState) (evs : List ConnEvent) (h : ConnInv st) (i : JsonId) :
    ((runConn st evs).2.map Prod.fst).count i + (pendingIds (runConn st evs).1).count i
      = (pendingIds st).count i := by
  induction evs generalizing st with
  | nil => simp [runConn]
  | cons e es ih =>
    rw [runConn_cons]
    have h1 := connStep_count st e h i
    have h2 := ih (connStep st e).1 (connStep_inv st e h)
    simp only [List.map_append, List.count_append]
    omega

theorem runConn_inv (st : ConnState) (evs : List ConnEvent) (h : ConnInv st) :
    ConnInv (runConn st evs).1 := by
  induction evs generalizing st with
  | nil => exact h
  | cons e es ih =>
    rw [runConn_cons]
    exact ih (connStep st e).1 (connStep_inv st e h)

theorem runConn_resolved_true (st : ConnState) (evs : List ConnEvent) (h : ConnLive st) :
    ∀ x ∈ (runConn st evs).2, x.2 = true := by
  induction evs generalizing st with
  | nil => intro x hx; exact absurd hx (List.not_mem_nil x)
  | cons e es ih =>
    intro x hx
    rw [runConn_cons] at hx
    rcases List.mem_append.mp hx with hx | hx
    · exact (connStep_live st e h).2 x hx
    · exact ih (connStep st e).1 (connStep_live st e h).1 x hx

theorem pendingIds_nil_parts (st : ConnState) (h : pendingIds st = []) :
    st.syncs = [] ∧ st.asyncs = [] := by
  rw [pendingIds] at h
  rcases List.append_eq_nil.mp h with ⟨h1, h2⟩
  exact ⟨List.map_eq_nil_iff.mp h1, List.map_eq_nil_iff.mp h2⟩

theorem getResponseEvent_empty (st : ConnState) (h1 : st.syncs = []) (h2 : st.asyncs = [])
    (resp : Payload) : getResponseEvent st resp = none := by
  cases resp with
  | single m => simp [getResponseEvent, lookupBoth, h1, h2, alookup]
  | batch ms =>
    simp [getResponseEvent, lookupBoth, h1, h2, alookup, List.find?_eq_none]
    cases List.find? (fun _ => false) ms <;> rfl

theorem connStep_empty (st : ConnState) (e : ConnEvent) (h : pendingIds st = []) :
    pendingIds (connStep st e).1 = [] := by
  obtain ⟨h1, h2⟩ := pendingIds_nil_parts st h
  cases e with
  | sockTimeout => simp [connStep, pendingIds, purge_eq_nil]
  | respond resp => simp [connStep, getResponseEvent_empty st h1 h2 resp, pendingIds, h1, h2]

theorem runConn_empty_pending (evs : List ConnEvent) :
    ∀ st, pendingIds st = [] → pendingIds (runConn st evs).1 = [] := by
  induction evs with
  | nil => intro st h; exact h
  | cons e es ih =>
    intro st h
    rw [runConn_cons]
    exact ih _ (connStep_empty st e h)

theorem runConn_timeout_empty (evs : List ConnEvent) :
    ∀ st, ConnEvent.sockTimeout ∈ evs → pendingIds (runConn st evs).1 = [] := by
  induction evs with
  | nil => intro st h; exact absurd h (List.not_mem_nil _)
  | cons e es ih =>
    intro st h
    rw [runConn_cons]
    by_cases he : e = ConnEvent.sockTimeout
    · subst he
      apply runConn_empty_pending
      simp [connStep, pendingIds, purge_eq_nil]
    · have hmem : ConnEvent.sockTimeout ∈ es := by
        rcases List.mem_cons.mp h with h1 | h1
        · exact absurd h1.symm he
        · exact h1
      exact ih _ hmem

/-- C8: over any interleaving of response arrivals and socket failure on a
connection whose pending maps satisfy the registration invariants and whose
senders are alive, each pending id is resolved (and delivered) at most once
— the resolution list has no duplicate ids, every resolved id was pending
and was delivered — and when the trace contains the socket-timeout event,
every initially pending id is resolved exactly once. -/
theorem c8_resolve_exactly_once (st : ConnState) (evs : List ConnEvent)
    (hinv : ConnInv st) (hl : ConnLive st) :
    ((runConn st evs).2.map Prod.fst).Nodup ∧
    (∀ x ∈ (runConn st evs).2, x.2 = true ∧ x.1 ∈ pendingIds st) ∧
    (ConnEvent.sockTimeout ∈ evs →
      ∀ i ∈ pendingIds st, ((runConn st evs).2.map Prod.fst).count i = 1) := by
  have hcount := runConn_count st evs hinv
  refine ⟨?_, ?_, ?_⟩
  · rw [List.nodup_iff_count_le_one]
    intro a
    have h1 := hcount a
    have h2 : (pendingIds st).count a ≤ 1 := List.nodup_iff_count_le_one.mp hinv.1 a
    omega
  · intro x hx
    refine ⟨runConn_resolved_true st evs hl x hx, ?_⟩
    have hmem : x.1 ∈ (runConn st evs).2.map Prod.fst := List.mem_map_of_mem Prod.fst hx
    have hpos : 0 < ((runConn st evs).2.map Prod.fst).count x.1 :=
      List.count_pos_iff.mpr hmem
    have h1 := hcount x.1
    have h2 : 0 < (pendingIds st).count x.1 := by omega
    exact List.count_pos_iff.mp h2
  · intro ht i hi
    have hempty := runConn_timeout_empty evs st ht
    have h1 := hcount i
    rw [hempty] at h1
    have h2 : (pendingIds st).count i = 1 := List.count_eq_one_of_mem hinv.1 hi
    simp only [List.count_nil] at h1
    omega

/-- C8 witness: two pending calls, a response for one followed by a socket
timeout, resolve each id exactly once. -/
theorem c8_resolve_exactly_once_witness :
    ConnInv (ConnState.mk
      [(JsonId.num 1, PendEv.mk false true (JsonId.num 1)
        (Payload.single (RpcMsg.mk (JsonId.num 1) (some "eth_call") [] none none)))]
      [(JsonId.num 2, PendEv.mk false false (JsonId.num 2)
        (Payload.single (RpcMsg.mk (JsonId.num 2) (some "eth_sign") [] none none)))]) ∧
    ((runConn (ConnState.mk
      [(JsonId.num 1, PendEv.mk false true (JsonId.num 1)
        (Payload.single (RpcMsg.mk (JsonId.num 1) (some "eth_call") [] none none)))]
      [(JsonId.num 2, PendEv.mk false false (JsonId.num 2)
        (Payload.single (RpcMsg.mk (JsonId.num 2) (some "eth_sign") [] none none)))])
      [ConnEvent.respond (Payload.single (RpcMsg.mk (JsonId.num 1) none [] (some (JVal.str "0x0")) none)),
       ConnEvent.sockTimeout]).2.map Prod.fst).Nodup := by
  have hinv : ConnInv (ConnState.mk
      [(JsonId.num 1, PendEv.mk false true (JsonId.num 1)
        (Payload.single (RpcMsg.mk (JsonId.num 1) (some "eth_call") [] none none)))]
      [(JsonId.num 2, PendEv.mk false false (JsonId.num 2)
        (Payload.single (RpcMsg.mk (JsonId.num 2) (some "eth_sign") [] none none)))]) :=
    ⟨by decide, by decide, by decide⟩
  have hl : ConnLive (ConnState.mk
      [(JsonId.num 1, PendEv.mk false true (JsonId.num 1)
        (Payload.single (RpcMsg.mk (JsonId.num 1) (some "eth_call") [] none none)))]
      [(JsonId.num 2, PendEv.mk false false (JsonId.num 2)
        (Payload.single (RpcMsg.mk (JsonId.num 2) (some "eth_sign") [] none none)))]) :=
    ⟨by decide, by decide⟩
  exact ⟨hinv, (c8_resolve_exactly_once _ _ hinv hl).1⟩
